import Mathlib

/-!
Shallow embedding of the `MultiWallet` backend router
(`chain/wallet/multi.go` of the lotus fork).

The router holds three optional backend handles (Local, Remote, Ledger) and
dispatches each key-management call over them.  Backends are opaque: each is a
record of response functions over an abstract world state `W`; mutating calls
(`WalletDelete`, `WalletNew`, `WalletImport`) additionally return the new
world state, which the router threads explicitly.  Go's `(value, error)`
returns become `Except`; the Go `nil` interface/pointer becomes `Option`;
the `getif`/`Get()` workaround for typed nils is subsumed by `Option`.

Errors: a backend failure is an opaque string; the router never rewraps a
backend error (constructor `Err.backend`), and creates fresh errors of its
own (`xerrors.Errorf("key not found")`, `xerrors.Errorf("no wallet backends
…")`), which are distinct values from every backend-produced error.
-/

namespace MultiWalletSpec

/-- Addresses (`address.Address`): opaque values with decidable equality. -/
abbrev Addr := Nat

/-- Key type tags (`types.KeyType`), a string in the source. -/
abbrev KeyType := String

/-- The hardware-backed key type `types.KTSecp256k1Ledger`. -/
def KTSecp256k1Ledger : KeyType := "secp256k1-ledger"

/-- Signing metadata (`api.MsgMeta`): opaque to the router. -/
abbrev MsgMeta := String × List Nat

/-- A signature (`crypto.Signature`): opaque to the router. -/
abbrev Sig := Nat × List Nat

/-- `types.KeyInfo`: the router reads only its `Type` field. -/
structure KeyInfo where
  type : KeyType
  privateKey : List Nat
  deriving DecidableEq

/-- A raw message and a signed message for `WalletSignMessage2`. -/
abbrev Msg := List Nat

/-- A signed message (`types.SignedMessage`): opaque to the router. -/
abbrev SignedMsg := List Nat × Sig

/-- Errors surfaced by the router.  `backend e` is an error returned verbatim
from a backend call; the remaining constructors are errors the router itself
creates, which in Go are fresh `xerrors.Errorf` values and hence distinct
from every backend error. -/
inductive Err where
  /-- An error propagated verbatim from a backend call. -/
  | backend (e : String)
  /-- `xerrors.Errorf("key not found")` in `WalletSign` / `WalletExport`. -/
  | keyNotFound
  /-- `xerrors.Errorf("no wallet backends supporting key type: %s", keyType)`
  in `WalletNew`. -/
  | noBackendsForKeyType (kt : KeyType)
  /-- `xerrors.Errorf("no wallet backends configured")` in `WalletImport`. -/
  | noBackendsConfigured
  /-- Modelled from the spec (§4.7): the error an unconfigured Local backend
  produces for a Local-only operation. -/
  | noBackendAvailable
  deriving DecidableEq

/-- Lift a backend call's result into the router's error type: backend errors
are surfaced verbatim. -/
def liftB {α : Type} : Except String α → Except Err α
  | .error e => .error (.backend e)
  | .ok a => .ok a

/-- The backend capability contract (`api.WalletAPI` as the router uses it),
over an abstract world state `W`.  Mutating operations return the new world
state. -/
structure WalletAPI (W : Type) where
  walletNew : W → KeyType → Except String (Addr × W)
  walletHas : W → Addr → Except String Bool
  walletList : W → Except String (List Addr)
  walletSign : W → Addr → List Nat → MsgMeta → Except String Sig
  walletExport : W → Addr → String → Except String KeyInfo
  walletImport : W → KeyInfo → Except String (Addr × W)
  walletDelete : W → Addr → String → Except String W

/-- The Local backend (`*LocalWallet`): the full backend contract plus the
Local-only operations the router forwards to it unconditionally. -/
structure LocalWallet (W : Type) where
  api : WalletAPI W
  walletChangePasswd : W → String → Except String (Bool × W)
  deleteKey2 : W → Addr → Except String W
  walletClearPasswd : W → Except String (Bool × W)
  walletIsLock : W → Except String Bool
  walletLock : W → Except String W
  walletUnlock : W → String → Except String W
  walletSignMessage2 : W → Addr → Msg → String → Except String SignedMsg

/-- The router: three optional backend handles (`fx.In` struct with
`optional:"true"` fields). -/
structure MultiWallet (W : Type) where
  Local : Option (LocalWallet W)
  Remote : Option (WalletAPI W)
  Ledger : Option (WalletAPI W)

variable {W : Type}

/-- The Local handle viewed through the backend contract (in Go,
`m.Local` passed as a `getif`/`api.WalletAPI`). -/
def MultiWallet.localAPI (m : MultiWallet W) : Option (WalletAPI W) :=
  m.Local.map LocalWallet.api

/-- `firstNonNil`: the first configured backend of the list, if any. -/
def firstNonNil : List (Option (WalletAPI W)) → Option (WalletAPI W)
  | [] => none
  | none :: ws => firstNonNil ws
  | some w :: _ => some w

/-- `nonNil`: the configured backends of the list, in order. -/
def nonNil : List (Option (WalletAPI W)) → List (WalletAPI W)
  | [] => []
  | none :: ws => nonNil ws
  | some w :: ws => w :: nonNil ws

/-- The search loop of `MultiWallet.find` over the already-filtered backend
list: first backend whose `WalletHas` reports true; a failing `WalletHas`
aborts with that error; exhaustion yields `none` (no owner) without error. -/
def findGo (st : W) (a : Addr) : List (WalletAPI W) → Except Err (Option (WalletAPI W))
  | [] => .ok none
  | w :: ws =>
    match w.walletHas st a with
    | .error e => .error (.backend e)
    | .ok true => .ok (some w)
    | .ok false => findGo st a ws

/-- `MultiWallet.find`: filter out unconfigured backends, then search in
order. -/
def find (st : W) (a : Addr) (wallets : List (Option (WalletAPI W))) :
    Except Err (Option (WalletAPI W)) :=
  findGo st a (nonNil wallets)

/-- `MultiWallet.WalletNew`: route by key type (Ledger for the hardware type,
Local otherwise), with Remote, when configured, always winning. -/
def MultiWallet.walletNew (m : MultiWallet W) (st : W) (keyType : KeyType) :
    Except Err (Addr × W) :=
  let localW : Option (WalletAPI W) :=
    if keyType = KTSecp256k1Ledger then m.Ledger else m.localAPI
  match firstNonNil [m.Remote, localW] with
  | none => .error (.noBackendsForKeyType keyType)
  | some w => liftB (w.walletNew st keyType)

/-- `MultiWallet.WalletHas`: search Remote, Ledger, Local; report whether an
owner was found. -/
def MultiWallet.walletHas (m : MultiWallet W) (st : W) (a : Addr) : Except Err Bool :=
  match find st a [m.Remote, m.Ledger, m.localAPI] with
  | .error e => .error e
  | .ok w => .ok w.isSome

/-- The Go result slice of `WalletList`: `none` models a nil slice, `some`
a non-nil one (`make([]address.Address, 0)` is `some []`). -/
abbrev GoSlice := Option (List Addr)

/-- The dedup inner loop of `WalletList`: fold one backend's address list
into `(out, seen)`, skipping addresses already seen. -/
def dedupAppend : List Addr → List Addr → List Addr → List Addr × List Addr
  | [], out, seen => (out, seen)
  | a :: rest, out, seen =>
    if a ∈ seen then dedupAppend rest out seen
    else dedupAppend rest (out ++ [a]) (a :: seen)

/-- The backend loop of `WalletList`: query each backend in turn, aborting on
the first failure. -/
def listGo (st : W) : List (WalletAPI W) → List Addr → List Addr → Except Err (List Addr)
  | [], out, _ => .ok out
  | w :: ws, out, seen =>
    match w.walletList st with
    | .error e => .error (.backend e)
    | .ok l =>
      let p := dedupAppend l out seen
      listGo st ws p.1 p.2

/-- `MultiWallet.WalletList`: union of the present backends' lists in order
Remote, Ledger, Local, first occurrence kept; the result slice is created
with `make` and hence non-nil even when empty. -/
def MultiWallet.walletList (m : MultiWallet W) (st : W) : Except Err GoSlice :=
  match listGo st (nonNil [m.Remote, m.Ledger, m.localAPI]) [] [] with
  | .error e => .error e
  | .ok out => .ok (some out)

/-- `MultiWallet.WalletSign`: resolve the owner over Remote, Ledger, Local;
no owner is `key not found`; delegate to the owner. -/
def MultiWallet.walletSign (m : MultiWallet W) (st : W) (signer : Addr)
    (toSign : List Nat) (meta : MsgMeta) : Except Err Sig :=
  match find st signer [m.Remote, m.Ledger, m.localAPI] with
  | .error e => .error e
  | .ok none => .error .keyNotFound
  | .ok (some w) => liftB (w.walletSign st signer toSign meta)

/-- `MultiWallet.WalletExport`: resolve the owner over Remote, Local only
(Ledger is not consulted); no owner is `key not found`. -/
def MultiWallet.walletExport (m : MultiWallet W) (st : W) (a : Addr)
    (password : String) : Except Err KeyInfo :=
  match find st a [m.Remote, m.localAPI] with
  | .error e => .error e
  | .ok none => .error .keyNotFound
  | .ok (some w) => liftB (w.walletExport st a password)

/-- `MultiWallet.WalletImport`.  The source reads `info.Type` with no nil
check, so a nil `info` is a nil-pointer dereference: the argument is an
`Option KeyInfo` and the result `none` models that undefined behavior; a
non-nil `info` routes by key type exactly as `WalletNew` does. -/
def MultiWallet.walletImport (m : MultiWallet W) (st : W) (info : Option KeyInfo) :
    Option (Except Err (Addr × W)) :=
  match info with
  | none => none
  | some info =>
    let localW : Option (WalletAPI W) :=
      if info.type = KTSecp256k1Ledger then m.Ledger else m.localAPI
    match firstNonNil [m.Remote, localW] with
    | none => some (.error .noBackendsConfigured)
    | some w => some (liftB (w.walletImport st info))

/-- `MultiWallet.WalletDelete`: repeatedly resolve the owner and delete from
it until no owner is found; any search or delete failure aborts.  The Go
`for {}` loop is modelled with explicit fuel; `none` is fuel exhaustion
(the loop still running). -/
def MultiWallet.walletDelete (m : MultiWallet W) :
    Nat → W → Addr → String → Option (Except Err W)
  | 0, _, _, _ => none
  | fuel + 1, st, a, pass =>
    match find st a [m.Remote, m.Ledger, m.localAPI] with
    | .error e => some (.error e)
    | .ok none => some (.ok st)
    | .ok (some w) =>
      match w.walletDelete st a pass with
      | .error e => some (.error (.backend e))
      | .ok st' => m.walletDelete fuel st' a pass

/-- Modelled from the spec: the `LocalWallet` implementation is not among the
sources, so the behavior of `m.Local.WalletChangePasswd` on a nil `m.Local`
is taken from §4.7 — an unconfigured Local backend produces a well-defined
`NoBackendAvailable`-style error.  A configured Local backend is forwarded to
unconditionally, as in the source. -/
def MultiWallet.walletChangePasswd (m : MultiWallet W) (st : W) (newPasswd : String) :
    Except Err (Bool × W) :=
  match m.Local with
  | none => .error .noBackendAvailable
  | some l => liftB (l.walletChangePasswd st newPasswd)

/-- Modelled from the spec: nil-`Local` behavior of `DeleteKey2` per §4.7
(the `LocalWallet` implementation is not among the sources). -/
def MultiWallet.deleteKey2 (m : MultiWallet W) (st : W) (a : Addr) : Except Err W :=
  match m.Local with
  | none => .error .noBackendAvailable
  | some l => liftB (l.deleteKey2 st a)

/-- Modelled from the spec: nil-`Local` behavior of `WalletClearPasswd` per
§4.7 (the `LocalWallet` implementation is not among the sources). -/
def MultiWallet.walletClearPasswd (m : MultiWallet W) (st : W) : Except Err (Bool × W) :=
  match m.Local with
  | none => .error .noBackendAvailable
  | some l => liftB (l.walletClearPasswd st)

/-- Modelled from the spec: nil-`Local` behavior of `WalletIsLock` per §4.7
(the `LocalWallet` implementation is not among the sources). -/
def MultiWallet.walletIsLock (m : MultiWallet W) (st : W) : Except Err Bool :=
  match m.Local with
  | none => .error .noBackendAvailable
  | some l => liftB (l.walletIsLock st)

/-- Modelled from the spec: nil-`Local` behavior of `WalletLock` per §4.7
(the `LocalWallet` implementation is not among the sources). -/
def MultiWallet.walletLock (m : MultiWallet W) (st : W) : Except Err W :=
  match m.Local with
  | none => .error .noBackendAvailable
  | some l => liftB (l.walletLock st)

/-- Modelled from the spec: nil-`Local` behavior of `WalletUnlock` per §4.7
(the `LocalWallet` implementation is not among the sources). -/
def MultiWallet.walletUnlock (m : MultiWallet W) (st : W) (password : String) :
    Except Err W :=
  match m.Local with
  | none => .error .noBackendAvailable
  | some l => liftB (l.walletUnlock st password)

/-- Modelled from the spec: nil-`Local` behavior of `WalletSignMessage2` per
§4.7 (the `LocalWallet` implementation is not among the sources). -/
def MultiWallet.walletSignMessage2 (m : MultiWallet W) (st : W) (k : Addr)
    (msg : Msg) (passwd : String) : Except Err SignedMsg :=
  match m.Local with
  | none => .error .noBackendAvailable
  | some l => liftB (l.walletSignMessage2 st k msg passwd)

/-! ### Concrete test fixtures (used by witnesses) -/

/-- A stateless backend over `Unit`: owns the addresses of `owned`, lists
`addrs`, answers every other call with a fixed success. -/
def testBackend (owned addrs : List Addr) : WalletAPI Unit where
  walletNew := fun _ _ => .ok (100, ())
  walletHas := fun _ a => .ok (decide (a ∈ owned))
  walletList := fun _ => .ok addrs
  walletSign := fun _ _ _ _ => .ok (1, [1])
  walletExport := fun _ _ _ => .ok ⟨"bls", [2]⟩
  walletImport := fun _ _ => .ok (101, ())
  walletDelete := fun _ _ _ => .ok ()

/-- A backend whose `WalletHas` always fails with error `e`. -/
def errHasBackend (e : String) : WalletAPI Unit :=
  { testBackend [] [] with walletHas := fun _ _ => .error e }

/-- A Local backend over `Unit` with fixed successful Local-only operations. -/
def testLocal (owned addrs : List Addr) : LocalWallet Unit where
  api := testBackend owned addrs
  walletChangePasswd := fun _ _ => .ok (true, ())
  deleteKey2 := fun _ _ => .ok ()
  walletClearPasswd := fun _ => .ok (true, ())
  walletIsLock := fun _ => .ok false
  walletLock := fun _ => .ok ()
  walletUnlock := fun _ _ => .ok ()
  walletSignMessage2 := fun _ _ _ _ => .ok ([3], (1, [4]))

/-! ### Lemmas about the presence search -/

/-- The search yields "no owner found" without error exactly when every
searched backend reports no ownership. -/
theorem findGo_ok_none_iff (st : W) (a : Addr) (ws : List (WalletAPI W)) :
    findGo st a ws = Except.ok none ↔ ∀ w ∈ ws, w.walletHas st a = Except.ok false := by
  induction ws with
  | nil => simp [findGo]
  | cons w ws ih =>
    simp only [findGo, List.mem_cons, forall_eq_or_imp]
    cases h : w.walletHas st a with
    | error e => simp [h]
    | ok b => cases b with
      | true => simp [h]
      | false => simp [h, ih]

/-- A successful search returns a searched backend that reported ownership. -/
theorem findGo_ok_some (st : W) (a : Addr) (ws : List (WalletAPI W)) (w : WalletAPI W)
    (h : findGo st a ws = Except.ok (some w)) :
    w ∈ ws ∧ w.walletHas st a = Except.ok true := by
  induction ws with
  | nil => simp [findGo] at h
  | cons x ws ih =>
    simp only [findGo] at h
    cases hx : x.walletHas st a with
    | error e => rw [hx] at h; exact absurd h (by simp)
    | ok b => cases b with
      | true =>
        rw [hx] at h
        have hxw : x = w := by simpa using h
        subst hxw
        exact ⟨List.mem_cons_self x ws, hx⟩
      | false =>
        rw [hx] at h
        have := ih h
        exact ⟨List.mem_cons_of_mem x this.1, this.2⟩

/-- Searched backends that report no ownership are skipped over. -/
theorem findGo_append_all_false (st : W) (a : Addr) (ws₁ ws₂ : List (WalletAPI W))
    (h : ∀ w ∈ ws₁, w.walletHas st a = Except.ok false) :
    findGo st a (ws₁ ++ ws₂) = findGo st a ws₂ := by
  induction ws₁ with
  | nil => rfl
  | cons x ws ih =>
    have hx := h x (List.mem_cons_self x ws)
    simp only [List.cons_append, findGo, hx]
    exact ih fun w hw => h w (List.mem_cons_of_mem x hw)

/-- Claim C1: the presence search used by Has, Sign and Delete consults the
backends in the fixed order Remote, Ledger, Local, skipping unconfigured
handles; it returns the first present backend whose `WalletHas` reports true,
and when no present backend reports ownership it returns "no owner found"
without error, upon which `WalletHas` returns false with no error. -/
theorem claim_C1 (W : Type) (m : MultiWallet W) (st : W) (a : Addr) :
    (∀ r g l, m.Remote = some r → m.Ledger = some g → m.localAPI = some l →
      nonNil [m.Remote, m.Ledger, m.localAPI] = [r, g, l]) ∧
    (∀ ws₁ b ws₂, nonNil [m.Remote, m.Ledger, m.localAPI] = ws₁ ++ b :: ws₂ →
      (∀ w ∈ ws₁, w.walletHas st a = Except.ok false) →
      b.walletHas st a = Except.ok true →
      find st a [m.Remote, m.Ledger, m.localAPI] = Except.ok (some b) ∧
      m.walletHas st a = Except.ok true) ∧
    ((∀ w ∈ nonNil [m.Remote, m.Ledger, m.localAPI], w.walletHas st a = Except.ok false) →
      find st a [m.Remote, m.Ledger, m.localAPI] = Except.ok none ∧
      m.walletHas st a = Except.ok false) := by
  refine ⟨?_, ?_, ?_⟩
  · intro r g l hr hg hl
    rw [hr, hg, hl]
    rfl
  · intro ws₁ b ws₂ hdec hfalse htrue
    have hfind : find st a [m.Remote, m.Ledger, m.localAPI] = Except.ok (some b) := by
      rw [find, hdec, findGo_append_all_false st a ws₁ (b :: ws₂) hfalse]
      simp [findGo, htrue]
    refine ⟨hfind, ?_⟩
    rw [MultiWallet.walletHas, hfind]
    rfl
  · intro hall
    have hfind : find st a [m.Remote, m.Ledger, m.localAPI] = Except.ok none :=
      (findGo_ok_none_iff st a _).mpr hall
    refine ⟨hfind, ?_⟩
    rw [MultiWallet.walletHas, hfind]
    rfl

/-- The router with a failing Remote, no Ledger, and a Local owning
address 0: the fail-fast fixture. -/
def mFailRemote : MultiWallet Unit :=
  ⟨some (testLocal [0] []), some (errHasBackend "remote offline"), none⟩

/-- Claim C2: if a present backend's `WalletHas` fails during the presence
search, Has, Sign, Delete and Export fail immediately with that backend's
error, consulting no lower-priority backend — even one that owns the
address. -/
theorem claim_C2 (W : Type) (m : MultiWallet W) (st : W) (a : Addr)
    (toSign : List Nat) (meta : MsgMeta) (pass : String) (fuel : Nat)
    (ws₁ : List (WalletAPI W)) (b : WalletAPI W) (ws₂ : List (WalletAPI W)) (e : String)
    (hdec : nonNil [m.Remote, m.Ledger, m.localAPI] = ws₁ ++ b :: ws₂)
    (hfalse : ∀ w ∈ ws₁, w.walletHas st a = Except.ok false)
    (herr : b.walletHas st a = Except.error e) :
    m.walletHas st a = Except.error (Err.backend e) ∧
    m.walletSign st a toSign meta = Except.error (Err.backend e) ∧
    m.walletDelete (fuel + 1) st a pass = some (Except.error (Err.backend e)) ∧
    (∀ ws₁' b' ws₂' e', nonNil [m.Remote, m.localAPI] = ws₁' ++ b' :: ws₂' →
      (∀ w ∈ ws₁', w.walletHas st a = Except.ok false) →
      b'.walletHas st a = Except.error e' →
      m.walletExport st a pass = Except.error (Err.backend e')) := by
  have hfind : find st a [m.Remote, m.Ledger, m.localAPI] = Except.error (Err.backend e) := by
    rw [find, hdec, findGo_append_all_false st a ws₁ (b :: ws₂) hfalse]
    simp [findGo, herr]
  refine ⟨?_, ?_, ?_, ?_⟩
  · rw [MultiWallet.walletHas, hfind]
  · rw [MultiWallet.walletSign, hfind]
  · rw [MultiWallet.walletDelete, hfind]
  · intro ws₁' b' ws₂' e' hdec' hfalse' herr'
    have hfind' : find st a [m.Remote, m.localAPI] = Except.error (Err.backend e') := by
      rw [find, hdec', findGo_append_all_false st a ws₁' (b' :: ws₂') hfalse']
      simp [findGo, herr']
    rw [MultiWallet.walletExport, hfind']

/-- Claim C2 witness: with Remote failing and Local owning address 0, Has and
Sign surface the Remote error. -/
theorem claim_C2_witness :
    mFailRemote.walletHas () 0 = Except.error (Err.backend "remote offline") ∧
    mFailRemote.walletSign () 0 [] ("", []) = Except.error (Err.backend "remote offline") := by
  have h := claim_C2 Unit mFailRemote () 0 [] ("", []) "p" 0
    [] (errHasBackend "remote offline") [(testLocal [0] []).api] "remote offline"
    rfl (by simp) rfl
  exact ⟨h.1, h.2.1⟩

/-- A failed search surfaces a backend error, never a router-created one. -/
theorem findGo_error_backend (st : W) (a : Addr) (ws : List (WalletAPI W)) (e : Err)
    (h : findGo st a ws = Except.error e) : ∃ s, e = Err.backend s := by
  induction ws with
  | nil => simp [findGo] at h
  | cons x ws ih =>
    simp only [findGo] at h
    cases hx : x.walletHas st a with
    | error s =>
      rw [hx] at h
      exact ⟨s, by simpa using h.symm⟩
    | ok b =>
      cases b with
      | true => rw [hx] at h; simp at h
      | false => rw [hx] at h; exact ih h

/-- A lifted backend result fails only with a backend error. -/
theorem liftB_error {α : Type} (x : Except String α) (e : Err)
    (h : liftB x = Except.error e) : ∃ s, e = Err.backend s := by
  cases x with
  | error s => exact ⟨s, by simpa [liftB] using h.symm⟩
  | ok a => simp [liftB] at h

/-- Claim C8: Sign and Export fail with the router's `key not found` error
exactly when their presence search completes with no searched backend
claiming the address; Sign searches Remote, Ledger, Local while Export
searches only Remote then Local, never consulting the Ledger handle. -/
theorem claim_C8 (W : Type) (m : MultiWallet W) (st : W) (a : Addr)
    (toSign : List Nat) (meta : MsgMeta) (pw : String) :
    (m.walletSign st a toSign meta = Except.error Err.keyNotFound ↔
      ∀ w ∈ nonNil [m.Remote, m.Ledger, m.localAPI], w.walletHas st a = Except.ok false) ∧
    (m.walletExport st a pw = Except.error Err.keyNotFound ↔
      ∀ w ∈ nonNil [m.Remote, m.localAPI], w.walletHas st a = Except.ok false) ∧
    (∀ lg : Option (WalletAPI W),
      MultiWallet.walletExport ⟨m.Local, m.Remote, lg⟩ st a pw = m.walletExport st a pw) := by
  refine ⟨?_, ?_, fun lg => rfl⟩
  · rw [MultiWallet.walletSign]
    cases hf : find st a [m.Remote, m.Ledger, m.localAPI] with
    | error e =>
      simp only [← findGo_ok_none_iff st a, find] at *
      obtain ⟨s, rfl⟩ := findGo_error_backend st a _ e hf
      simp [hf]
    | ok o =>
      cases o with
      | none =>
        simp only [← findGo_ok_none_iff st a, find] at *
        simp [hf]
      | some w =>
        rw [find] at hf
        obtain ⟨hmem, htrue⟩ := findGo_ok_some st a _ w hf
        constructor
        · intro hlift
          obtain ⟨s, hs⟩ := liftB_error _ _ hlift
          exact absurd hs (by simp)
        · intro hall
          rw [hall w hmem] at htrue
          exact absurd htrue (by simp)
  · rw [MultiWallet.walletExport]
    cases hf : find st a [m.Remote, m.localAPI] with
    | error e =>
      simp only [← findGo_ok_none_iff st a, find] at *
      obtain ⟨s, rfl⟩ := findGo_error_backend st a _ e hf
      simp [hf]
    | ok o =>
      cases o with
      | none =>
        simp only [← findGo_ok_none_iff st a, find] at *
        simp [hf]
      | some w =>
        rw [find] at hf
        obtain ⟨hmem, htrue⟩ := findGo_ok_some st a _ w hf
        constructor
        · intro hlift
          obtain ⟨s, hs⟩ := liftB_error _ _ hlift
          exact absurd hs (by simp)
        · intro hall
          rw [hall w hmem] at htrue
          exact absurd htrue (by simp)

/-- Claim C3: New and Import route by key type (the candidate is Ledger for
the hardware-backed type, Local otherwise); Remote, when configured, always
wins; with Remote absent the candidate, when configured, is the target; with
neither configured the operation fails with the router's no-backend error. -/
theorem claim_C3 (W : Type) (m : MultiWallet W) (st : W) (kt : KeyType) (info : KeyInfo) :
    (∀ r, m.Remote = some r →
      m.walletNew st kt = liftB (r.walletNew st kt)) ∧
    (m.Remote = none → ∀ c,
      (if kt = KTSecp256k1Ledger then m.Ledger else m.localAPI) = some c →
      m.walletNew st kt = liftB (c.walletNew st kt)) ∧
    (m.Remote = none →
      (if kt = KTSecp256k1Ledger then m.Ledger else m.localAPI) = none →
      m.walletNew st kt = Except.error (Err.noBackendsForKeyType kt)) ∧
    (∀ r, m.Remote = some r →
      m.walletImport st (some info) = some (liftB (r.walletImport st info))) ∧
    (m.Remote = none → ∀ c,
      (if info.type = KTSecp256k1Ledger then m.Ledger else m.localAPI) = some c →
      m.walletImport st (some info) = some (liftB (c.walletImport st info))) ∧
    (m.Remote = none →
      (if info.type = KTSecp256k1Ledger then m.Ledger else m.localAPI) = none →
      m.walletImport st (some info) = some (Except.error Err.noBackendsConfigured)) := by
  refine ⟨?_, ?_, ?_, ?_, ?_, ?_⟩
  · intro r hr
    simp only [MultiWallet.walletNew, hr, firstNonNil]
  · intro hr c hc
    simp only [MultiWallet.walletNew, hr, hc, firstNonNil]
  · intro hr hc
    simp only [MultiWallet.walletNew, hr, hc, firstNonNil]
  · intro r hr
    simp only [MultiWallet.walletImport, hr, firstNonNil]
  · intro hr c hc
    simp only [MultiWallet.walletImport, hr, hc, firstNonNil]
  · intro hr hc
    simp only [MultiWallet.walletImport, hr, hc, firstNonNil]

/-- Claim C9: with zero backends configured, List succeeds with a non-nil
empty slice and no error, and the presence search yields "no owner found"
without error, so Has reports false without error. -/
theorem claim_C9 (W : Type) (st : W) (a : Addr) (m : MultiWallet W)
    (hl : m.Local = none) (hr : m.Remote = none) (hg : m.Ledger = none) :
    m.walletList st = Except.ok (some []) ∧
    find st a [m.Remote, m.Ledger, m.localAPI] = Except.ok none ∧
    m.walletHas st a = Except.ok false := by
  obtain ⟨lc, r, g⟩ := m
  simp only at hl hr hg
  subst hl; subst hr; subst hg
  refine ⟨rfl, rfl, rfl⟩

/-- Claim C9 witness: the all-unconfigured router over a trivial world. -/
theorem claim_C9_witness :
    (⟨none, none, none⟩ : MultiWallet Unit).walletList () = Except.ok (some []) ∧
    find () 0 [(⟨none, none, none⟩ : MultiWallet Unit).Remote,
      (⟨none, none, none⟩ : MultiWallet Unit).Ledger,
      (⟨none, none, none⟩ : MultiWallet Unit).localAPI] = Except.ok none ∧
    (⟨none, none, none⟩ : MultiWallet Unit).walletHas () 0 = Except.ok false :=
  claim_C9 Unit () 0 ⟨none, none, none⟩ rfl rfl rfl

/-- Claim C10: Import on a nil key-info argument is the modelled nil-pointer
dereference (no guarded error branch exists), and on any non-nil key info the
call is well-defined. -/
theorem claim_C10 (W : Type) (m : MultiWallet W) (st : W) :
    m.walletImport st none = none ∧
    ∀ info : KeyInfo, (m.walletImport st (some info)).isSome = true := by
  refine ⟨rfl, fun info => ?_⟩
  simp only [MultiWallet.walletImport]
  cases firstNonNil [m.Remote,
      if info.type = KTSecp256k1Ledger then m.Ledger else m.localAPI] <;> rfl

/-- Claim C5: one round of the Delete loop — when the search finds no owner
(in particular when every present backend denies ownership) Delete succeeds
at once with the state unchanged; a search error or a backend delete error
aborts with that error; a successful backend delete restarts the resolution
from scratch on the new state. -/
theorem claim_C5 (W : Type) (m : MultiWallet W) (st : W) (a : Addr)
    (pass : String) (fuel : Nat) :
    ((∀ w ∈ nonNil [m.Remote, m.Ledger, m.localAPI], w.walletHas st a = Except.ok false) →
      m.walletDelete (fuel + 1) st a pass = some (Except.ok st)) ∧
    (∀ e, find st a [m.Remote, m.Ledger, m.localAPI] = Except.error e →
      m.walletDelete (fuel + 1) st a pass = some (Except.error e)) ∧
    (∀ b e, find st a [m.Remote, m.Ledger, m.localAPI] = Except.ok (some b) →
      b.walletDelete st a pass = Except.error e →
      m.walletDelete (fuel + 1) st a pass = some (Except.error (Err.backend e))) ∧
    (∀ b st', find st a [m.Remote, m.Ledger, m.localAPI] = Except.ok (some b) →
      b.walletDelete st a pass = Except.ok st' →
      m.walletDelete (fuel + 1) st a pass = m.walletDelete fuel st' a pass) := by
  refine ⟨?_, ?_, ?_, ?_⟩
  · intro hall
    have hfind : find st a [m.Remote, m.Ledger, m.localAPI] = Except.ok none :=
      (findGo_ok_none_iff st a _).mpr hall
    rw [MultiWallet.walletDelete, hfind]
  · intro e hfind
    rw [MultiWallet.walletDelete, hfind]
  · intro b e hfind hdel
    rw [MultiWallet.walletDelete, hfind]
    show (match b.walletDelete st a pass with
      | Except.error e => some (Except.error (Err.backend e))
      | Except.ok st' => m.walletDelete fuel st' a pass) = _
    rw [hdel]
  · intro b st' hfind hdel
    rw [MultiWallet.walletDelete, hfind]
    show (match b.walletDelete st a pass with
      | Except.error e => some (Except.error (Err.backend e))
      | Except.ok st' => m.walletDelete fuel st' a pass) = _
    rw [hdel]

/-! ### Enumeration and deduplication -/

/-- First-occurrence deduplication avoiding an initial set: the specification
of the `WalletList` union ("duplicates removed, first occurrence kept"). -/
def dedupNew (avoid : List Addr) : List Addr → List Addr
  | [] => []
  | a :: rest => if a ∈ avoid then dedupNew avoid rest else a :: dedupNew (a :: avoid) rest

/-- Deduplication depends on the avoided set only through membership. -/
theorem dedupNew_congr (s₁ s₂ : List Addr) (l : List Addr)
    (h : ∀ x, x ∈ s₁ ↔ x ∈ s₂) : dedupNew s₁ l = dedupNew s₂ l := by
  induction l generalizing s₁ s₂ with
  | nil => rfl
  | cons a rest ih =>
    simp only [dedupNew]
    by_cases ha : a ∈ s₁
    · rw [if_pos ha, if_pos ((h a).mp ha)]
      exact ih s₁ s₂ h
    · rw [if_neg ha, if_neg fun hc => ha ((h a).mpr hc)]
      exact congrArg (a :: ·) (ih (a :: s₁) (a :: s₂) fun x => by simp [h x])

/-- Deduplicating a concatenation splits at the boundary. -/
theorem dedupNew_append (avoid l₁ l₂ : List Addr) :
    dedupNew avoid (l₁ ++ l₂) =
      dedupNew avoid l₁ ++ dedupNew (avoid ++ dedupNew avoid l₁) l₂ := by
  induction l₁ generalizing avoid with
  | nil => simp [dedupNew]
  | cons a rest ih =>
    simp only [List.cons_append, dedupNew, List.append_eq]
    by_cases ha : a ∈ avoid
    · rw [if_pos ha, if_pos ha]
      exact ih avoid
    · rw [if_neg ha, if_neg ha, ih (a :: avoid)]
      simp only [List.cons_append]
      refine congrArg (a :: ·) (congrArg _ ?_)
      exact dedupNew_congr _ _ l₂ fun x => by
        simp only [List.mem_append, List.mem_cons]
        tauto

/-- The inner loop of `WalletList` extends `out` with the unseen addresses in
first-occurrence order, and afterwards `seen` again mirrors `out`. -/
theorem dedupAppend_spec (l : List Addr) : ∀ out seen : List Addr,
    (∀ x, x ∈ seen ↔ x ∈ out) →
    (dedupAppend l out seen).1 = out ++ dedupNew out l ∧
    ∀ x, x ∈ (dedupAppend l out seen).2 ↔ x ∈ out ++ dedupNew out l := by
  induction l with
  | nil =>
    intro out seen h
    constructor
    · simp [dedupAppend, dedupNew]
    · intro x
      simp only [dedupAppend, dedupNew, List.append_nil]
      exact h x
  | cons a rest ih =>
    intro out seen h
    simp only [dedupAppend, dedupNew]
    by_cases ha : a ∈ seen
    · have ha' : a ∈ out := (h a).mp ha
      rw [if_pos ha, if_pos ha']
      exact ih out seen h
    · have ha' : a ∉ out := fun hc => ha ((h a).mpr hc)
      rw [if_neg ha, if_neg ha']
      have h' : ∀ x, x ∈ a :: seen ↔ x ∈ out ++ [a] := by
        intro x
        simp only [List.mem_cons, List.mem_append, List.mem_singleton, h x]
        tauto
      obtain ⟨h1, h2⟩ := ih (out ++ [a]) (a :: seen) h'
      have hcongr : dedupNew (out ++ [a]) rest = dedupNew (a :: out) rest :=
        dedupNew_congr _ _ rest fun x => by
          simp only [List.mem_append, List.mem_cons, List.mem_singleton]
          tauto
      constructor
      · rw [h1, hcongr, List.append_assoc]
        rfl
      · intro x
        rw [h2 x, hcongr, List.append_assoc]
        rfl

/-- `listGo` over backends that all answer appends the deduplicated union of
their lists. -/
theorem listGo_ok (st : W) {ws : List (WalletAPI W)} {ls : List (List Addr)}
    (hf : List.Forall₂ (fun w l => w.walletList st = Except.ok l) ws ls) :
    ∀ out seen, (∀ x, x ∈ seen ↔ x ∈ out) →
    listGo st ws out seen = Except.ok (out ++ dedupNew out ls.flatten) := by
  induction hf with
  | nil =>
    intro out seen _
    simp [listGo, dedupNew]
  | @cons w l ws ls hwl _ ih =>
    intro out seen h
    simp only [listGo, hwl]
    obtain ⟨h1, h2⟩ := dedupAppend_spec l out seen h
    rw [ih _ _ fun x => by rw [h2 x, h1], h1, List.flatten_cons, dedupNew_append,
      List.append_assoc]

/-- `listGo` aborts with the first failing backend's error. -/
theorem listGo_err (st : W) {ws₁ : List (WalletAPI W)} {ls₁ : List (List Addr)}
    (hf : List.Forall₂ (fun w l => w.walletList st = Except.ok l) ws₁ ls₁)
    (b : WalletAPI W) (ws₂ : List (WalletAPI W)) (e : String)
    (hb : b.walletList st = Except.error e) :
    ∀ out seen, listGo st (ws₁ ++ b :: ws₂) out seen = Except.error (Err.backend e) := by
  induction hf with
  | nil =>
    intro out seen
    simp [listGo, hb]
  | @cons w l ws ls hwl _ ih =>
    intro out seen
    simp only [List.cons_append, listGo, hwl]
    exact ih _ _

/-- Claim C7: List queries the present backends in order Remote, Ledger,
Local; when they all answer it returns the concatenation of their lists with
duplicates removed in first-occurrence order; a failure from any backend's
list call aborts the enumeration with that error and no partial result. -/
theorem claim_C7 (W : Type) (m : MultiWallet W) (st : W) :
    (∀ ls : List (List Addr),
      List.Forall₂ (fun w l => w.walletList st = Except.ok l)
        (nonNil [m.Remote, m.Ledger, m.localAPI]) ls →
      m.walletList st = Except.ok (some (dedupNew [] ls.flatten))) ∧
    (∀ ws₁ ls₁ (b : WalletAPI W) ws₂ e,
      nonNil [m.Remote, m.Ledger, m.localAPI] = ws₁ ++ b :: ws₂ →
      List.Forall₂ (fun w l => w.walletList st = Except.ok l) ws₁ ls₁ →
      b.walletList st = Except.error e →
      m.walletList st = Except.error (Err.backend e)) := by
  constructor
  · intro ls hf
    rw [MultiWallet.walletList, listGo_ok st hf [] [] fun x => Iff.rfl]
    rfl
  · intro ws₁ ls₁ b ws₂ e hdec hf hb
    rw [MultiWallet.walletList, hdec, listGo_err st hf b ws₂ e hb [] []]

/-! ### Deletion convergence -/

/-- The number of present backends currently claiming the address. -/
def ownerCount (m : MultiWallet W) (st : W) (a : Addr) : Nat :=
  ((nonNil [m.Remote, m.Ledger, m.localAPI]).filter fun w =>
    match w.walletHas st a with
    | Except.ok true => true
    | _ => false).length

/-- Claim C6: when every successful backend delete strictly decreases the
number of backends claiming the address, the Delete loop terminates within
`ownerCount + 1` resolutions, and whenever it returns success no present
backend claims the address any more, so Has reports false. -/
theorem claim_C6 (W : Type) (m : MultiWallet W) (a : Addr) (pass : String)
    (H : ∀ st st' w, w ∈ nonNil [m.Remote, m.Ledger, m.localAPI] →
      w.walletHas st a = Except.ok true → w.walletDelete st a pass = Except.ok st' →
      ownerCount m st' a < ownerCount m st a)
    (fuel : Nat) (st : W) (hfuel : ownerCount m st a < fuel) :
    ∃ r, m.walletDelete fuel st a pass = some r ∧
      ∀ st', r = Except.ok st' → m.walletHas st' a = Except.ok false := by
  induction fuel generalizing st with
  | zero => exact absurd hfuel (Nat.not_lt_zero _)
  | succ fuel ih =>
    cases hf : find st a [m.Remote, m.Ledger, m.localAPI] with
    | error e =>
      refine ⟨Except.error e, ?_, fun st' h => by simp at h⟩
      rw [MultiWallet.walletDelete, hf]
    | ok o =>
      cases o with
      | none =>
        refine ⟨Except.ok st, ?_, fun st' h => ?_⟩
        · rw [MultiWallet.walletDelete, hf]
        · obtain rfl : st = st' := by simpa using h
          rw [MultiWallet.walletHas, hf]
          rfl
      | some w =>
        have hfq := hf
        rw [find] at hfq
        obtain ⟨hmem, htrue⟩ := findGo_ok_some st a _ w hfq
        cases hd : w.walletDelete st a pass with
        | error e =>
          refine ⟨Except.error (Err.backend e), ?_, fun st' h => by simp at h⟩
          rw [MultiWallet.walletDelete, hf]
          show (match w.walletDelete st a pass with
            | Except.error e => some (Except.error (Err.backend e))
            | Except.ok st' => m.walletDelete fuel st' a pass) = _
          rw [hd]
        | ok st2 =>
          have hlt : ownerCount m st2 a < ownerCount m st a := H st st2 w hmem htrue hd
          obtain ⟨r, hr, hpost⟩ :=
            ih st2 (Nat.lt_of_lt_of_le hlt (Nat.lt_succ_iff.mp hfuel))
          refine ⟨r, ?_, hpost⟩
          rw [MultiWallet.walletDelete, hf]
          show (match w.walletDelete st a pass with
            | Except.error e => some (Except.error (Err.backend e))
            | Except.ok st' => m.walletDelete fuel st' a pass) = _
          rw [hd]
          exact hr

deriving instance DecidableEq for Except

/-- A two-flag world for the convergence fixture: whether Remote and whether
Local own address 0. -/
abbrev FlagW := Bool × Bool

/-- A Remote backend over `FlagW` owning address 0 while the first flag is
set; its delete clears that flag. -/
def remoteC6 : WalletAPI FlagW where
  walletNew := fun st _ => .ok (100, st)
  walletHas := fun st a => .ok (decide (a = 0) && st.1)
  walletList := fun st => .ok (if st.1 then [0] else [])
  walletSign := fun _ _ _ _ => .ok (1, [1])
  walletExport := fun _ _ _ => .ok ⟨"bls", [2]⟩
  walletImport := fun st _ => .ok (101, st)
  walletDelete := fun st a _ => .ok (if a = 0 then (false, st.2) else st)

/-- A Local backend over `FlagW` owning address 0 while the second flag is
set; its delete clears that flag. -/
def localC6 : LocalWallet FlagW where
  api :=
    { walletNew := fun st _ => .ok (100, st)
      walletHas := fun st a => .ok (decide (a = 0) && st.2)
      walletList := fun st => .ok (if st.2 then [0] else [])
      walletSign := fun _ _ _ _ => .ok (1, [1])
      walletExport := fun _ _ _ => .ok ⟨"bls", [2]⟩
      walletImport := fun st _ => .ok (101, st)
      walletDelete := fun st a _ => .ok (if a = 0 then (st.1, false) else st) }
  walletChangePasswd := fun st _ => .ok (true, st)
  deleteKey2 := fun st _ => .ok st
  walletClearPasswd := fun st => .ok (true, st)
  walletIsLock := fun _ => .ok false
  walletLock := fun st => .ok st
  walletUnlock := fun st _ => .ok st
  walletSignMessage2 := fun _ _ _ _ => .ok ([3], (1, [4]))

/-- The inconsistent-state fixture: address 0 registered in both Remote and
Local. -/
def mBoth : MultiWallet FlagW := ⟨some localC6, some remoteC6, none⟩

/-- Claim C6 witness: with address 0 owned by both Remote and Local, three
resolutions suffice and afterwards Has reports false. -/
theorem claim_C6_witness :
    ∃ r, mBoth.walletDelete 3 (true, true) 0 "p" = some r ∧
      ∀ st', r = Except.ok st' → mBoth.walletHas st' 0 = Except.ok false :=
  claim_C6 FlagW mBoth 0 "p" (by decide) 3 (true, true) (by decide)

/-! ### Local-only passthrough operations -/

/-- Claim C4: every Local-only operation is forwarded unconditionally to the
Local backend, ignoring Remote and Ledger entirely; with Local unconfigured
each call fails with the well-defined no-backend error (the absent-Local
behavior is modelled from the spec, §4.7). -/
theorem claim_C4 (W : Type) (m : MultiWallet W) (st : W)
    (newPasswd password passwd : String) (k : Addr) (msg : Msg) :
    (m.Local = none →
      m.walletChangePasswd st newPasswd = Except.error Err.noBackendAvailable ∧
      m.walletClearPasswd st = Except.error Err.noBackendAvailable ∧
      m.walletIsLock st = Except.error Err.noBackendAvailable ∧
      m.walletLock st = Except.error Err.noBackendAvailable ∧
      m.walletUnlock st password = Except.error Err.noBackendAvailable ∧
      m.walletSignMessage2 st k msg passwd = Except.error Err.noBackendAvailable) ∧
    (∀ l, m.Local = some l →
      m.walletChangePasswd st newPasswd = liftB (l.walletChangePasswd st newPasswd) ∧
      m.walletClearPasswd st = liftB (l.walletClearPasswd st) ∧
      m.walletIsLock st = liftB (l.walletIsLock st) ∧
      m.walletLock st = liftB (l.walletLock st) ∧
      m.walletUnlock st password = liftB (l.walletUnlock st password) ∧
      m.walletSignMessage2 st k msg passwd = liftB (l.walletSignMessage2 st k msg passwd)) ∧
    (∀ r g : Option (WalletAPI W),
      MultiWallet.walletChangePasswd ⟨m.Local, r, g⟩ st newPasswd =
        m.walletChangePasswd st newPasswd ∧
      MultiWallet.walletClearPasswd ⟨m.Local, r, g⟩ st = m.walletClearPasswd st ∧
      MultiWallet.walletIsLock ⟨m.Local, r, g⟩ st = m.walletIsLock st ∧
      MultiWallet.walletLock ⟨m.Local, r, g⟩ st = m.walletLock st ∧
      MultiWallet.walletUnlock ⟨m.Local, r, g⟩ st password = m.walletUnlock st password ∧
      MultiWallet.walletSignMessage2 ⟨m.Local, r, g⟩ st k msg passwd =
        m.walletSignMessage2 st k msg passwd) := by
  refine ⟨fun hl => ?_, fun l hl => ?_, fun r g => ?_⟩
  · rw [MultiWallet.walletChangePasswd, MultiWallet.walletClearPasswd,
      MultiWallet.walletIsLock, MultiWallet.walletLock, MultiWallet.walletUnlock,
      MultiWallet.walletSignMessage2, hl]
    exact ⟨rfl, rfl, rfl, rfl, rfl, rfl⟩
  · rw [MultiWallet.walletChangePasswd, MultiWallet.walletClearPasswd,
      MultiWallet.walletIsLock, MultiWallet.walletLock, MultiWallet.walletUnlock,
      MultiWallet.walletSignMessage2, hl]
    exact ⟨rfl, rfl, rfl, rfl, rfl, rfl⟩
  · exact ⟨rfl, rfl, rfl, rfl, rfl, rfl⟩

end MultiWalletSpec
